import Mathlib

namespace PromptLab

/-- Whitespace predicate used by Python's str.split and str.strip
(ASCII fragment: space, tab, newline, carriage return, vertical tab, form feed). -/
def isPySpace (c : Char) : Bool :=
  c == ' ' || c == '\t' || c == '\n' || c == '\r' || c == '\x0b' || c == '\x0c'

/-- Python str.strip: drop leading and trailing whitespace. -/
def pyStrip (s : String) : String :=
  ⟨((s.data.dropWhile isPySpace).reverse.dropWhile isPySpace).reverse⟩

/-- Python str.split with no arguments: maximal runs of non-whitespace characters.
Accumulator holds the current word reversed. -/
def splitWsAux : List Char → List Char → List (List Char)
  | [], acc => if acc.isEmpty then [] else [acc.reverse]
  | c :: rest, acc =>
    if isPySpace c then
      (if acc.isEmpty then splitWsAux rest [] else acc.reverse :: splitWsAux rest [])
    else
      splitWsAux rest (c :: acc)

def splitWs (cs : List Char) : List (List Char) := splitWsAux cs []

/-- Independent characterization of the word count: number of positions that start a
maximal non-whitespace run. The Boolean argument records whether we are inside a word. -/
def countWordsAux : Bool → List Char → Nat
  | _, [] => 0
  | inWord, c :: rest =>
    if isPySpace c then countWordsAux false rest
    else (if inWord then 0 else 1) + countWordsAux true rest

/-- Lowercase a character list (ASCII fragment of Python str.lower /
re.IGNORECASE matching, which is what the repository's data exercises). -/
def lowerList (cs : List Char) : List Char := cs.map Char.toLower

/-- Check whether the first list is a prefix of the second, by character equality. -/
def isPrefOf : List Char → List Char → Bool
  | [], _ => true
  | _ :: _, [] => false
  | a :: as, b :: bs => a == b && isPrefOf as bs

/-- Literal substring search: does `needle` occur contiguously anywhere in `hay`?
This models Python re.search(re.escape(needle), hay): re.escape makes the pattern
a literal, so the search is plain substring containment. -/
def listContains (needle : List Char) : List Char → Bool
  | [] => isPrefOf needle []
  | c :: rest => isPrefOf needle (c :: rest) || listContains needle rest

/-- Case-insensitive literal substring test:
models re.search(re.escape(k), output, re.I) being truthy. -/
def containsCI (output k : String) : Bool :=
  listContains (lowerList k.data) (lowerList output.data)

/-- Round an exact rational to the nearest integer, ties to even.
Models Python round() applied to the scores that arise here (the scores are
small exact rationals; Python's binary-float round is modelled exactly over ℚ). -/
def rhEven (q : ℚ) : ℤ :=
  let f := ⌊q⌋
  let r := q - (f : ℚ)
  if r < 1/2 then f
  else if 1/2 < r then f + 1
  else if f % 2 = 0 then f else f + 1

/-- Python round(x, 3): round to three decimal places, ties to even. -/
def round3 (q : ℚ) : ℚ := (rhEven (q * 1000) : ℚ) / 1000

/-- Python exceptions that the evaluation pipeline can raise. -/
inductive PyError where
  | attributeError
  | typeError
  | keyError (name : String)
  | valueError
  | zeroDivisionError
deriving DecidableEq

/-- A few-shot example exchange (an element of a variant's few_shots list). -/
structure Shot where
  user : String
  model : String

/-- A prompt variant, as loaded from variants.yaml (fields relevant to the pipeline). -/
structure Variant where
  id : String
  system : Option String
  prompt_template : String
  few_shots : List Shot
  applies_to : Option (List String)
  response_mime_type : Option String

/-- A test case, as loaded from cases.json. Per the data model, id, type, task and
input are required strings; the expectation fields are optional and type-specific. -/
structure Case where
  id : String
  type : String
  task : String
  input : String
  max_words : Option ℤ
  keywords : Option (List String)
  expected_label : Option String

/-- Python values that flow through the pipeline: the JSON-decodable values plus
the NaN and Infinity literals Python's json module accepts. -/
inductive PyVal where
  | pynull
  | pybool (b : Bool)
  | pyint (n : ℤ)
  | pyfloat (q : ℚ)
  | pynan
  | pyinf (neg : Bool)
  | pystr (s : String)
  | pylist (xs : List PyVal)
  | pydict (kvs : List (String × PyVal))

instance : Inhabited PyVal := ⟨PyVal.pynull⟩

/-- Python truthiness of a value. -/
def pyTruthy : PyVal → Bool
  | .pynull => false
  | .pybool b => b
  | .pyint n => !(n == 0)
  | .pyfloat q => !(q.num == 0)
  | .pynan => true
  | .pyinf _ => true
  | .pystr s => !s.isEmpty
  | .pylist xs => !xs.isEmpty
  | .pydict kvs => !kvs.isEmpty

/-- Assign into a Python dict represented as an insertion-ordered association list:
an existing key keeps its position and takes the new value, a new key is appended. -/
def setKey : List (String × PyVal) → String → PyVal → List (String × PyVal)
  | [], k, v => [(k, v)]
  | (k', v') :: rest, k, v =>
    if k' = k then (k', v) :: rest else (k', v') :: setKey rest k v

/-- Build a Python dict from parsed members (duplicate keys: later value wins). -/
def dictOfPairs (ps : List (String × PyVal)) : List (String × PyVal) :=
  ps.foldl (fun m kv => setKey m kv.1 kv.2) []

/-- JSON whitespace (RFC 8259 / Python json). -/
def isJWs (c : Char) : Bool := c == ' ' || c == '\t' || c == '\n' || c == '\r'

def skipJWs (cs : List Char) : List Char := cs.dropWhile isJWs

def hexVal (c : Char) : Option ℕ :=
  if '0' ≤ c ∧ c ≤ '9' then some (c.toNat - 48)
  else if 'a' ≤ c ∧ c ≤ 'f' then some (c.toNat - 87)
  else if 'A' ≤ c ∧ c ≤ 'F' then some (c.toNat - 55)
  else none

/-- JSON string body after the opening quote (strict mode of Python json.loads:
unescaped control characters are rejected; surrogate escapes are not modelled). -/
def parseStrAux : List Char → List Char → Option (String × List Char)
  | [], _ => none
  | '"' :: rest, acc => some (⟨acc.reverse⟩, rest)
  | '\\' :: '"' :: r, acc => parseStrAux r ('"' :: acc)
  | '\\' :: '\\' :: r, acc => parseStrAux r ('\\' :: acc)
  | '\\' :: '/' :: r, acc => parseStrAux r ('/' :: acc)
  | '\\' :: 'b' :: r, acc => parseStrAux r ('\x08' :: acc)
  | '\\' :: 'f' :: r, acc => parseStrAux r ('\x0c' :: acc)
  | '\\' :: 'n' :: r, acc => parseStrAux r ('\n' :: acc)
  | '\\' :: 'r' :: r, acc => parseStrAux r ('\r' :: acc)
  | '\\' :: 't' :: r, acc => parseStrAux r ('\t' :: acc)
  | '\\' :: 'u' :: h1 :: h2 :: h3 :: h4 :: r, acc =>
    (match hexVal h1, hexVal h2, hexVal h3, hexVal h4 with
     | some a, some b, some c, some d =>
       let n := ((a * 16 + b) * 16 + c) * 16 + d
       if n.isValidChar then parseStrAux r (Char.ofNat n :: acc) else none
     | _, _, _, _ => none)
  | '\\' :: _, _ => none
  | c :: rest, acc => if c.toNat < 32 then none else parseStrAux rest (c :: acc)

def digitsToNat (ds : List Char) : ℕ :=
  ds.foldl (fun a c => a * 10 + (c.toNat - 48)) 0

/-- JSON number, following Python json's NUMBER_RE: the integer part is 0 or a
nonzero-leading digit run; fraction and exponent are optional and only consumed
when well-formed (otherwise the number ends before them). Ints stay ints;
any fraction or exponent makes a float, modelled exactly as a rational. -/
def parseNum (cs : List Char) : Option (PyVal × List Char) :=
  let (neg, cs1) := match cs with
    | '-' :: r => (true, r)
    | _ => (false, cs)
  let ipart : Option (List Char × List Char) := match cs1 with
    | '0' :: r => some (['0'], r)
    | c :: _ => if c.isDigit then some (cs1.span Char.isDigit) else none
    | [] => none
  match ipart with
  | none => none
  | some (ids, r1) =>
    let (fds, r2) : List Char × List Char := match r1 with
      | '.' :: r => match r.span Char.isDigit with
        | ([], _) => ([], r1)
        | (fs, rr) => (fs, rr)
      | _ => ([], r1)
    let epart : Option (Bool × List Char × List Char) := match r2 with
      | 'e' :: '+' :: r => (match r.span Char.isDigit with
        | ([], _) => none
        | (es, rr) => some (false, es, rr))
      | 'E' :: '+' :: r => (match r.span Char.isDigit with
        | ([], _) => none
        | (es, rr) => some (false, es, rr))
      | 'e' :: '-' :: r => (match r.span Char.isDigit with
        | ([], _) => none
        | (es, rr) => some (true, es, rr))
      | 'E' :: '-' :: r => (match r.span Char.isDigit with
        | ([], _) => none
        | (es, rr) => some (true, es, rr))
      | 'e' :: r => (match r.span Char.isDigit with
        | ([], _) => none
        | (es, rr) => some (false, es, rr))
      | 'E' :: r => (match r.span Char.isDigit with
        | ([], _) => none
        | (es, rr) => some (false, es, rr))
      | _ => none
    let ival : ℤ := (digitsToNat ids : ℤ)
    if fds.isEmpty ∧ epart.isNone then
      some (.pyint (if neg then -ival else ival), r2)
    else
      let base : ℚ := (ival : ℚ) + (digitsToNat fds : ℚ) / ((10 : ℚ) ^ fds.length)
      let scaled : ℚ := match epart with
        | some (true, es, _) => base / ((10 : ℚ) ^ digitsToNat es)
        | some (false, es, _) => base * ((10 : ℚ) ^ digitsToNat es)
        | none => base
      let rest := match epart with
        | some (_, _, rr) => rr
        | none => r2
      some (.pyfloat (if neg then -scaled else scaled), rest)

mutual

/-- JSON value parser (models Python json.loads tokenization), fuel-indexed. -/
def parseVal : ℕ → List Char → Option (PyVal × List Char)
  | 0, _ => none
  | f + 1, cs =>
    match cs with
    | 'n' :: 'u' :: 'l' :: 'l' :: r => some (.pynull, r)
    | 't' :: 'r' :: 'u' :: 'e' :: r => some (.pybool true, r)
    | 'f' :: 'a' :: 'l' :: 's' :: 'e' :: r => some (.pybool false, r)
    | 'N' :: 'a' :: 'N' :: r => some (.pynan, r)
    | 'I' :: 'n' :: 'f' :: 'i' :: 'n' :: 'i' :: 't' :: 'y' :: r => some (.pyinf false, r)
    | '-' :: 'I' :: 'n' :: 'f' :: 'i' :: 'n' :: 'i' :: 't' :: 'y' :: r => some (.pyinf true, r)
    | '"' :: r => (parseStrAux r []).map (fun p => (.pystr p.1, p.2))
    | '[' :: r =>
      (match skipJWs r with
       | ']' :: r2 => some (.pylist [], r2)
       | cs2 => (parseElems f cs2).map (fun p => (.pylist p.1, p.2)))
    | '{' :: r =>
      (match skipJWs r with
       | '}' :: r2 => some (.pydict [], r2)
       | cs2 => (parseMems f cs2).map (fun p => (.pydict (dictOfPairs p.1), p.2)))
    | c :: _ => if c = '-' ∨ c.isDigit then parseNum cs else none
    | [] => none

/-- One-or-more array elements followed by the closing bracket. -/
def parseElems : ℕ → List Char → Option (List PyVal × List Char)
  | 0, _ => none
  | f + 1, cs =>
    match parseVal f cs with
    | some (v, r) =>
      (match skipJWs r with
       | ']' :: r2 => some ([v], r2)
       | ',' :: r2 => (parseElems f (skipJWs r2)).map (fun p => (v :: p.1, p.2))
       | _ => none)
    | none => none

/-- One-or-more object members followed by the closing brace. -/
def parseMems : ℕ → List Char → Option (List (String × PyVal) × List Char)
  | 0, _ => none
  | f + 1, cs =>
    match cs with
    | '"' :: r =>
      (match parseStrAux r [] with
       | some (k, r2) =>
         (match skipJWs r2 with
          | ':' :: r3 =>
            (match parseVal f (skipJWs r3) with
             | some (v, r4) =>
               (match skipJWs r4 with
                | '}' :: r5 => some ([(k, v)], r5)
                | ',' :: r5 => (parseMems f (skipJWs r5)).map (fun p => ((k, v) :: p.1, p.2))
                | _ => none)
             | none => none)
          | _ => none)
       | none => none)
    | _ => none

end

/-- Python json.loads: parse the whole string as one JSON value (surrounding
whitespace allowed, trailing non-whitespace is the Extra data error). -/
def json_loads (s : String) : Option PyVal :=
  let cs := skipJWs s.data
  match parseVal (cs.length + 1) cs with
  | some (v, r) => if (skipJWs r).isEmpty then some v else none
  | none => none

/-- Metrics record returned by the summarize scorer. -/
structure SumMetrics where
  words : ℕ
  score_len : ℚ
  score_keywords : ℚ
deriving DecidableEq

/-- The summarize scorer (score_summarize in run_eval.py).
words = len(output.split()); max_words = int(case.get("max_words", 9999));
s_len = 1.0 if words <= max_words else max(0.0, 1 - (words - max_words) / max_words)
(Python raises ZeroDivisionError when the else branch divides by max_words = 0);
s_keys = hits / len(kws) over case-insensitive literal substring hits if the case
declares keywords, else 0.0; both sub-scores rounded to 3 decimals. -/
def score_summarize (output : String) (c : Case) : Except PyError SumMetrics :=
  let words := (splitWs output.data).length
  let max_words : ℤ := c.max_words.getD 9999
  let kws : List String := c.keywords.getD []
  let s_keys : ℚ :=
    if kws.isEmpty then 0
    else ((kws.countP (fun k => containsCI output k) : ℚ)) / (kws.length : ℚ)
  if (words : ℤ) ≤ max_words then
    .ok ⟨words, round3 1, round3 s_keys⟩
  else if max_words = 0 then
    .error .zeroDivisionError
  else
    .ok ⟨words, round3 (max 0 (1 - ((words : ℚ) - (max_words : ℚ)) / (max_words : ℚ))),
         round3 s_keys⟩

/-- Python str.capitalize: first character uppercased, the rest lowercased. -/
def pyCapitalize (s : String) : String :=
  match s.data with
  | [] => ""
  | c :: rest => ⟨Char.toUpper c :: lowerList rest⟩

/-- First case-insensitive occurrence of one of the literal tokens Positive,
Neutral, Negative: models re.search applied to the alternation pattern with re.I,
returning the matched text (original casing). The three alternatives differ within
their first three letters, so at most one can match at a given position. -/
def findSentTokenL : List Char → Option (List Char)
  | [] => none
  | c :: rest =>
    if isPrefOf ("positive".data) (lowerList (c :: rest)) then some ((c :: rest).take 8)
    else if isPrefOf ("neutral".data) (lowerList (c :: rest)) then some ((c :: rest).take 7)
    else if isPrefOf ("negative".data) (lowerList (c :: rest)) then some ((c :: rest).take 8)
    else findSentTokenL rest

/-- Metrics record returned by the classify scorer. label is the Python value
bound to the label variable (pynull models Python None). -/
structure ClsMetrics where
  ok_json : ℚ
  label : PyVal
  score_label : ℚ

/-- The classify scorer (score_classify in run_eval.py).
parsed = json.loads(output), falling back on parse failure to the regex label
extraction; ok_json = 1.0 iff parsed is a dict containing a label key;
label = (parsed or the empty dict).get("label"), which raises AttributeError when parsed
is a truthy non-dict; match = 1.0 iff label and expected_label are both truthy and
equal case-insensitively, where label.lower() raises AttributeError on a truthy
non-string label. -/
def score_classify (output : String) (c : Case) : Except PyError ClsMetrics :=
  let parsed : Option PyVal :=
    match json_loads output with
    | some v => some v
    | none =>
      match findSentTokenL output.data with
      | some tok => some (.pydict [("label", .pystr (pyCapitalize ⟨tok⟩)), ("confidence", .pynull)])
      | none => none
  let okj : ℚ :=
    match parsed with
    | some (.pydict kvs) => if (List.lookup "label" kvs).isSome then 1 else 0
    | _ => 0
  do
  let label : PyVal ←
    match parsed with
    | none => .ok .pynull
    | some v =>
      if pyTruthy v then
        match v with
        | .pydict kvs => .ok ((List.lookup "label" kvs).getD .pynull)
        | _ => .error .attributeError
      else .ok .pynull
  let sl : ℚ ←
    if pyTruthy label then
      match c.expected_label with
      | some e =>
        if e.isEmpty then .ok 0
        else
          match label with
          | .pystr s => .ok (if lowerList s.data = lowerList e.data then 1 else 0)
          | _ => .error .attributeError
      | none => .ok 0
    else .ok 0
  .ok ⟨okj, label, sl⟩

/-- Tokens of a Python format string: literal characters and replacement fields. -/
inductive FTok where
  | lit (c : Char)
  | fieldName (s : String)
deriving DecidableEq

/-- Read a replacement-field name up to the closing brace. A nested opening brace
or end of input is malformed (Python raises ValueError). -/
def fnameAux : List Char → List Char → Option (String × List Char)
  | [], _ => none
  | c :: rest, acc =>
    if c = '\x7d' then some (⟨acc.reverse⟩, rest)
    else if c = '\x7b' then none
    else fnameAux rest (c :: acc)

/-- Tokenize a Python format string: doubled braces are literal braces, a single
opening brace starts a replacement field, a single closing brace is malformed.
Conversion and format specifications are not modelled (this repository's templates
use plain named fields). Fuel-indexed; the top-level wrapper supplies enough fuel. -/
def ftokens : ℕ → List Char → Option (List FTok)
  | 0, _ => none
  | f + 1, cs =>
    match cs with
    | [] => some []
    | '\x7b' :: '\x7b' :: rest => (ftokens f rest).map (fun ts => .lit '\x7b' :: ts)
    | '\x7d' :: '\x7d' :: rest => (ftokens f rest).map (fun ts => .lit '\x7d' :: ts)
    | '\x7b' :: rest =>
      (match fnameAux rest [] with
       | some (nm, r2) => (ftokens f r2).map (fun ts => .fieldName nm :: ts)
       | none => none)
    | '\x7d' :: _ => none
    | c :: rest => (ftokens f rest).map (fun ts => .lit c :: ts)

def ftokensTop (s : String) : Option (List FTok) := ftokens (s.data.length + 1) s.data

/-- Substitute the task and input fields into the token list; any other field name
raises (Python str.format raises KeyError since only task and input are passed). -/
def renderToks (task inp : String) : List FTok → Except PyError (List Char)
  | [] => .ok []
  | .lit c :: rest => (renderToks task inp rest).map (fun cs => c :: cs)
  | .fieldName nm :: rest =>
    if nm = "task" then (renderToks task inp rest).map (fun cs => task.data ++ cs)
    else if nm = "input" then (renderToks task inp rest).map (fun cs => inp.data ++ cs)
    else .error (.keyError nm)

/-- Python tmpl.format(task=..., input=...) as called by render_prompt. -/
def pyFormat (tmpl task inp : String) : Except PyError String :=
  match ftokensTop tmpl with
  | none => .error .valueError
  | some ts => (renderToks task inp ts).map (fun cs => ⟨cs⟩)

/-- The ephemeral rendered-prompt value returned by render_prompt. -/
structure Rendered where
  prompt : String
  system : Option String
  mime : Option String

def fewshotBlock (s : Shot) : String :=
  "User: " ++ s.user ++ "\nAssistant: " ++ s.model

/-- The prompt built in the few-shot branch of render_prompt. -/
def fewshotPrompt (v : Variant) (c : Case) : String :=
  String.intercalate "\n\n" (v.few_shots.map fewshotBlock) ++ "\n\n" ++
    "User: " ++ c.task ++ "\n" ++ c.input ++ "\nAssistant:"

/-- render_prompt in run_eval.py: format the template (which can raise), then
replace the prompt wholesale with the few-shot construction when few_shots is
non-empty; system and response_mime_type pass through untouched. -/
def render (v : Variant) (c : Case) : Except PyError Rendered :=
  (pyFormat v.prompt_template c.task c.input).map (fun base =>
    ⟨if v.few_shots.isEmpty then base else fewshotPrompt v c,
     v.system, v.response_mime_type⟩)

/-- A ResultRecord: a Python dict, modelled as an insertion-ordered association list. -/
abbrev Record := List (String × PyVal)

/-- allowed = set(v.get("applies_to", ["summarize", "classify"])). -/
def appliesToSet (v : Variant) : List String :=
  v.applies_to.getD ["summarize", "classify"]

/-- The core fields written first into every result record. output is the model
text stripped (with None recorded as the empty string). -/
def baseRow (v : Variant) (c : Case) (text : Option String) : Record :=
  [("variant", .pystr v.id), ("case_id", .pystr c.id), ("type", .pystr c.type),
   ("output", .pystr (pyStrip (text.getD "")))]

/-- The summarize metric fields appended by result.update plus the total_score
assignment: (score_len + score_keywords) / 2 rounded to 3 decimals, computed from
the already-rounded sub-scores. -/
def summarizeRow (m : SumMetrics) : Record :=
  [("words", .pyint (m.words : ℤ)), ("score_len", .pyfloat m.score_len),
   ("score_keywords", .pyfloat m.score_keywords),
   ("total_score", .pyfloat (round3 ((m.score_len + m.score_keywords) / 2)))]

/-- The classify metric fields plus total_score = (ok_json + score_label) / 2
rounded to 3 decimals. -/
def classifyRow (m : ClsMetrics) : Record :=
  [("ok_json", .pyfloat m.ok_json), ("label", m.label),
   ("score_label", .pyfloat m.score_label),
   ("total_score", .pyfloat (round3 ((m.ok_json + m.score_label) / 2)))]

/-- The body of the main loop for one (variant, case) pair: render (may raise),
invoke the model (opaque gen, returning resp.text which may be None), build the
record, and score by case type. A None text reaches the scorers raw:
None.split() raises AttributeError for summarize; for classify json.loads(None)
raises TypeError, caught, and then re.search on None raises TypeError uncaught.
Unknown case types append the unscored base record. -/
def execPair (gen : Rendered → Option String) (v : Variant) (c : Case) :
    Except PyError Record := do
  let rendered ← render v c
  let text := gen rendered
  let base := baseRow v c text
  if c.type = "summarize" then
    match text with
    | none => .error .attributeError
    | some t => do
      let m ← score_summarize t c
      .ok (base ++ summarizeRow m)
  else if c.type = "classify" then
    match text with
    | none => .error .typeError
    | some t => do
      let m ← score_classify t c
      .ok (base ++ classifyRow m)
  else .ok base

/-- Sequence a list of per-pair results: the first raised exception aborts the run. -/
def seqE : List (Except PyError Record) → Except PyError (List Record)
  | [] => .ok []
  | e :: rest => do
    let r ← e
    let rs ← seqE rest
    .ok (r :: rs)

/-- The inner loop of main over cases for one variant: pairs whose case type is
not in the allowed set are skipped entirely (continue), producing no record. -/
def runCases (gen : Rendered → Option String) (v : Variant) :
    List Case → Except PyError (List Record)
  | [] => .ok []
  | c :: rest =>
    if c.type ∈ appliesToSet v then do
      let r ← execPair gen v c
      let rs ← runCases gen v rest
      .ok (r :: rs)
    else runCases gen v rest

/-- The outer loop of main over variants, accumulating rows in declared order. -/
def runAll (gen : Rendered → Option String) :
    List Variant → List Case → Except PyError (List Record)
  | [], _ => .ok []
  | v :: rest, cs => do
    let a ← runCases gen v cs
    let b ← runAll gen rest cs
    .ok (a ++ b)

/-- core = ["variant", "case_id", "type", "output", "total_score"]. -/
def coreCols : List String := ["variant", "case_id", "type", "output", "total_score"]

def rowKeys (r : Record) : List String := r.map Prod.fst

/-- The set of keys observed across all records of the run. -/
def unionKeys (rows : List Record) : List String :=
  ((rows.map rowKeys).flatten).dedup

/-- Code-point lexicographic order on character lists (Python string comparison). -/
def charLL : List Char → List Char → Bool
  | [], _ => true
  | _ :: _, [] => false
  | a :: as, b :: bs =>
    if a.toNat < b.toNat then true
    else if b.toNat < a.toNat then false
    else charLL as bs

def strLe (a b : String) : Bool := charLL a.data b.data

def insSorted (x : String) : List String → List String
  | [] => [x]
  | y :: ys => if strLe x y then x :: y :: ys else y :: insSorted x ys

/-- Python sorted() on strings, as an insertion sort by code-point order. -/
def sortStrs : List String → List String
  | [] => []
  | x :: xs => insSorted x (sortStrs xs)

/-- metrics = sorted(union of row keys - core). -/
def metricsCols (rows : List Record) : List String :=
  sortStrs ((unionKeys rows).filter (fun k => !(k ∈ coreCols : Bool)))

/-- fieldnames = core + metrics. -/
def fieldCols (rows : List Record) : List String := coreCols ++ metricsCols rows

/-- The CSV loop body r.setdefault(k, "") for k in fieldnames: missing keys are
appended, in fieldnames order, with the empty string; this mutates the row dict. -/
def padRow (fns : List String) (r : Record) : Record :=
  r ++ (fns.filter (fun k => (List.lookup k r).isNone)).map (fun k => (k, PyVal.pystr ""))

/-- The cells DictWriter emits for one (padded) row, in fieldnames order. -/
def csvCells (fns : List String) (r : Record) : List PyVal :=
  fns.map (fun k => (List.lookup k (padRow fns r)).getD (.pystr ""))

/-- The tabular (CSV) export: one cell row per record, aligned to fieldnames. -/
def tabularRows (rows : List Record) : List (List PyVal) :=
  rows.map (csvCells (fieldCols rows))

/-- The structured (JSON) export: json.dumps(rows) runs after the CSV loop has
already mutated each row dict via setdefault, so it serializes the padded rows. -/
def structuredRows (rows : List Record) : List Record :=
  rows.map (padRow (fieldCols rows))

def isEmptyCell : PyVal → Bool
  | .pystr s => s.isEmpty
  | _ => false

/-- Reconstruct a record from one tabular row, treating an empty-string cell as
the key being absent (the round-trip reading of the claim). -/
def reconRow (fns : List String) (cells : List PyVal) : Record :=
  (fns.zip cells).filter (fun kv => !isEmptyCell kv.2)

def reconRows (rows : List Record) : List Record :=
  (tabularRows rows).map (reconRow (fieldCols rows))

/-- A summarize case that does not set max_words. -/
def cNoMax : Case := ⟨"s0", "summarize", "t", "i", none, none, none⟩

/-- A summarize case with max_words 10 and keyword list ["x"]. -/
def cSumEx : Case := ⟨"s1", "summarize", "t", "i", some 10, some ["x"], none⟩

/-- A summarize case with keywords ["refund", "delay"]. -/
def cRefund : Case := ⟨"s2", "summarize", "t", "i", some 50, some ["refund", "delay"], none⟩

/-- A classify case expecting the label Positive. -/
def cClsEx : Case := ⟨"c1", "classify", "t", "i", none, none, some "Positive"⟩

/-- A case of a type neither scorer handles. -/
def cOther : Case := ⟨"o1", "other", "t", "i", none, none, none⟩

/-- A plain variant: placeholder-free template, no few-shots, default applies_to. -/
def vEx : Variant := ⟨"v1", none, "do", [], none, none⟩

/-- A variant whose template references a field name that is not supplied. -/
def vBad : Variant := ⟨"vb", none, "\x7bfoo\x7d", [], none, none⟩

/-- A variant with two few-shot examples. -/
def vFS : Variant := ⟨"vf", none, "T", [⟨"u1", "m1"⟩, ⟨"u2", "m2"⟩], none, none⟩

/-- A variant declaring applies_to = ["classify"]. -/
def vClsOnly : Variant := ⟨"vc", none, "do", [], some ["classify"], none⟩

/-- A scripted model stand-in that always answers "Positive". -/
def genEx : Rendered → Option String := fun _ => some "Positive"

/-- A scripted model stand-in whose response text is None. -/
def genNone : Rendered → Option String := fun _ => none

/-- A scripted model stand-in answering with surrounding whitespace. -/
def genPad : Rendered → Option String := fun _ => some "  hi  "

/-- An output of 19998 whitespace-delimited words. -/
def bigOut : String := ⟨(List.replicate 19998 ['a', ' ']).flatten⟩

/-- The records of an actual run: vEx over one summarize and one classify case
with the scripted model — one record of each shape, with different metric keys. -/
def rowsRun : List Record := (runAll genEx [vEx] [cSumEx, cClsEx]).toOption.getD []

/-- A small heterogeneous row set used to exercise the export schema. -/
def rowsW : List Record :=
  [[("variant", .pystr "v"), ("words", .pyint 1)],
   [("variant", .pystr "v"), ("b", .pynull)]]

theorem splitWsAux_length (cs : List Char) :
    ∀ acc, (splitWsAux cs acc).length
      = (if acc.isEmpty then 0 else 1) + countWordsAux (!acc.isEmpty) cs := by
  induction cs with
  | nil =>
    intro acc
    cases acc <;> simp [splitWsAux, countWordsAux]
  | cons c rest ih =>
    intro acc
    by_cases hc : isPySpace c
    · cases acc <;> simp [splitWsAux, countWordsAux, hc, ih, Nat.add_comm]
    · cases acc <;> simp [splitWsAux, countWordsAux, hc, ih, Nat.add_comm]

theorem splitWs_length (cs : List Char) :
    (splitWs cs).length = countWordsAux false cs := by
  simpa [splitWs] using splitWsAux_length cs []

theorem isPrefOf_iff (needle hay : List Char) :
    isPrefOf needle hay = true ↔ ∃ post, hay = needle ++ post := by
  induction needle generalizing hay with
  | nil => simp [isPrefOf]
  | cons a as ih =>
    cases hay with
    | nil => simp [isPrefOf]
    | cons b bs =>
      simp only [isPrefOf, Bool.and_eq_true, beq_iff_eq, ih, List.cons_append,
        List.cons.injEq]
      constructor
      · rintro ⟨h1, post, h2⟩
        exact ⟨post, h1.symm, h2⟩
      · rintro ⟨post, h1, h2⟩
        exact ⟨h1.symm, post, h2⟩

theorem listContains_iff (needle hay : List Char) :
    listContains needle hay = true ↔ ∃ pre post, hay = pre ++ needle ++ post := by
  induction hay with
  | nil =>
    simp only [listContains, isPrefOf_iff]
    constructor
    · rintro ⟨post, h⟩
      exact ⟨[], post, by simpa using h⟩
    · rintro ⟨pre, post, h⟩
      cases pre with
      | nil => exact ⟨post, by simpa using h⟩
      | cons x xs => simp at h
  | cons c rest ih =>
    simp only [listContains, Bool.or_eq_true, isPrefOf_iff, ih]
    constructor
    · rintro (⟨post, h⟩ | ⟨pre, post, h⟩)
      · exact ⟨[], post, by simpa using h⟩
      · exact ⟨c :: pre, post, by simp [h]⟩
    · rintro ⟨pre, post, h⟩
      cases pre with
      | nil => exact Or.inl ⟨post, by simpa using h⟩
      | cons x xs =>
        right
        simp only [List.cons_append, List.cons.injEq] at h
        exact ⟨xs, post, h.2⟩

theorem round3_one : round3 1 = 1 := by
  simp only [round3, rhEven]
  norm_num

theorem round3_zero : round3 0 = 0 := by
  simp only [round3, rhEven]
  norm_num

theorem round3_half : round3 (1/2) = 1/2 := by
  simp only [round3, rhEven]
  norm_num

/-- Claim C1: for every summarize case with max_words set and every output string,
the summarize scorer counts words as the number of whitespace-delimited tokens,
sets score_len to 1.0 when words are within max_words and to the linear penalty
max(0, 1 - (words - max_words) / max_words) otherwise (so exactly max_words words
give 1.0, double give 0.0, one-and-a-half times give 0.5 for even max_words), with
sub-scores rounded to 3 decimals and total_score = (score_len + score_keywords) / 2
rounded to 3 decimals. Stated away from max_words = 0, where the penalty formula
divides by zero. -/
theorem claim_C1 (output : String) (c : Case) (mw : ℤ)
    (hmw : c.max_words = some mw) (h0 : mw ≠ 0) :
    ∃ m : SumMetrics,
      score_summarize output c = .ok m ∧
      m.words = countWordsAux false output.data ∧
      m.score_len = round3 (if (m.words : ℤ) ≤ mw then 1
        else max 0 (1 - ((m.words : ℚ) - (mw : ℚ)) / (mw : ℚ))) ∧
      (∃ kq : ℚ, m.score_keywords = round3 kq) ∧
      List.lookup "total_score" (summarizeRow m)
        = some (.pyfloat (round3 ((m.score_len + m.score_keywords) / 2))) ∧
      ((m.words : ℤ) = mw → m.score_len = 1) ∧
      (0 < mw → (m.words : ℤ) = 2 * mw → m.score_len = 0) ∧
      (0 < mw → mw % 2 = 0 → (m.words : ℤ) = mw + mw / 2 → m.score_len = 1/2) := by
  have hW := splitWs_length output.data
  set SK : ℚ := if (c.keywords.getD []).isEmpty then (0 : ℚ)
    else (((c.keywords.getD []).countP (fun k => containsCI output k) : ℚ))
      / (((c.keywords.getD []).length : ℚ)) with hSK
  by_cases hle : (((splitWs output.data).length : ℤ)) ≤ mw
  · refine ⟨⟨(splitWs output.data).length, round3 1, round3 SK⟩,
      ?_, ?_, ?_, ⟨SK, rfl⟩, rfl, ?_, ?_, ?_⟩
    · simp [score_summarize, hmw, hle, hSK]
    · simpa using hW
    · simp [hle]
    · intro _
      exact round3_one
    · intro hpos h2
      have h2' : (((splitWs output.data).length : ℤ)) = 2 * mw := by simpa using h2
      omega
    · intro hpos hev h15
      have h15' : (((splitWs output.data).length : ℤ)) = mw + mw / 2 := by simpa using h15
      omega
  · refine ⟨⟨(splitWs output.data).length,
      round3 (max 0 (1 - (((splitWs output.data).length : ℚ) - (mw : ℚ)) / (mw : ℚ))),
      round3 SK⟩,
      ?_, ?_, ?_, ⟨SK, rfl⟩, rfl, ?_, ?_, ?_⟩
    · simp [score_summarize, hmw, hle, h0, hSK]
    · simpa using hW
    · simp [hle]
    · intro heq
      have heq' : (((splitWs output.data).length : ℤ)) = mw := by simpa using heq
      omega
    · intro hpos h2
      have h2' : (((splitWs output.data).length : ℤ)) = 2 * mw := by simpa using h2
      have h2q : ((splitWs output.data).length : ℚ) = 2 * (mw : ℚ) := by
        exact_mod_cast congrArg (Int.cast : ℤ → ℚ) h2'
      have hmq : (mw : ℚ) ≠ 0 := Int.cast_ne_zero.mpr h0
      have harg0 : (1 : ℚ) - (((splitWs output.data).length : ℚ) - (mw : ℚ)) / (mw : ℚ)
          = 0 := by
        rw [h2q]
        field_simp
        ring
      rw [harg0]
      simpa using round3_zero
    · intro hpos hev h15
      have h15'' : (((splitWs output.data).length : ℤ)) = mw + mw / 2 := by simpa using h15
      obtain ⟨k, hk⟩ : ∃ k, mw = 2 * k := ⟨mw / 2, by omega⟩
      have hk0 : k ≠ 0 := by omega
      have h15' : ((splitWs output.data).length : ℤ) = 3 * k := by omega
      have h15q : ((splitWs output.data).length : ℚ) = 3 * (k : ℚ) := by
        exact_mod_cast congrArg (Int.cast : ℤ → ℚ) h15'
      have hkq : (k : ℚ) ≠ 0 := Int.cast_ne_zero.mpr hk0
      have hmwq : (mw : ℚ) = 2 * (k : ℚ) := by exact_mod_cast congrArg (Int.cast : ℤ → ℚ) hk
      have harg : (1 : ℚ) - (((splitWs output.data).length : ℚ) - (mw : ℚ)) / (mw : ℚ)
          = 1/2 := by
        rw [h15q, hmwq]
        field_simp
        ring
      rw [harg]
      have hmax : max (0 : ℚ) (1/2) = 1/2 := by norm_num
      rw [hmax]
      exact round3_half

theorem claim_C1_witness :
    (score_summarize "Positive" cSumEx).map SumMetrics.score_len = .ok 1 := by
  obtain ⟨m, hok, hw, hlen, _, _, _, _, _⟩ :=
    claim_C1 "Positive" cSumEx 10 rfl (by norm_num)
  have hwv : m.words = 1 := by
    rw [hw]
    decide
  have hlt : ((m.words : ℤ)) ≤ 10 := by
    rw [hwv]
    norm_num
  rw [hok]
  simp only [Except.map]
  rw [hlen, if_pos hlt, round3_one]

theorem score_summarize_keywords (output : String) (c : Case) (m : SumMetrics)
    (h : score_summarize output c = .ok m) :
    m.score_keywords = round3 (if (c.keywords.getD []).isEmpty then (0 : ℚ)
      else (((c.keywords.getD []).countP (fun k => containsCI output k) : ℚ))
        / (((c.keywords.getD []).length : ℚ))) := by
  simp only [score_summarize] at h
  split at h
  · cases h
    rfl
  · split at h
    · cases h
    · cases h
      rfl

/-- Claim C3: for every summarize case, a non-empty declared keyword list gives
score_keywords = hits / len(keywords) (rounded to 3 decimals as all sub-scores
are), where a hit is a case-insensitive literal substring occurrence of the
keyword anywhere in the output (characterized by an explicit decomposition, so
keyword text is never a pattern); with no declared keywords score_keywords is 0. -/
theorem claim_C3 (output : String) (c : Case) (m : SumMetrics)
    (h : score_summarize output c = .ok m) :
    (∀ kws, c.keywords = some kws → kws ≠ [] →
       m.score_keywords
         = round3 (((kws.countP (fun k => containsCI output k) : ℚ)) / ((kws.length : ℚ)))) ∧
    (c.keywords.getD [] = [] → m.score_keywords = 0) ∧
    (∀ k : String, containsCI output k = true ↔
       ∃ pre post, lowerList output.data = pre ++ lowerList k.data ++ post) := by
  have hsk := score_summarize_keywords output c m h
  refine ⟨?_, ?_, ?_⟩
  · intro kws hkws hne
    rw [hsk, hkws]
    cases kws with
    | nil => exact absurd rfl hne
    | cons a as => rfl
  · intro hk
    rw [hsk, hk]
    simpa using round3_zero
  · intro k
    exact listContains_iff (lowerList k.data) (lowerList output.data)

theorem claim_C3_witness :
    (score_summarize "Your REFUND arrived" cRefund).map SumMetrics.score_keywords
      = .ok (1/2) ∧ containsCI "abc" "a.c" = false := by
  constructor
  · have hw : (splitWs ("Your REFUND arrived").data).length = 3 := by decide
    have h : score_summarize "Your REFUND arrived" cRefund = .ok ⟨3, 1, 1/2⟩ := by
      have hk : (["refund", "delay"].countP
          (fun k => containsCI "Your REFUND arrived" k)) = 1 := by decide
      simp only [score_summarize, cRefund, hw, hk, Option.getD]
      norm_num [round3, rhEven]
    obtain ⟨hkw, _, _⟩ := claim_C3 "Your REFUND arrived" cRefund ⟨3, 1, 1/2⟩ h
    have hval := hkw ["refund", "delay"] rfl (by simp)
    rw [h]
    rfl
  · decide

theorem cw_repl (n : ℕ) :
    countWordsAux false ((List.replicate n ['a', ' ']).flatten) = n := by
  have ha : isPySpace 'a' = false := by decide
  have hs : isPySpace ' ' = true := by decide
  induction n with
  | zero => rfl
  | succ k ih => simp [List.replicate_succ, countWordsAux, ha, hs, ih, Nat.add_comm]

/-- Claim C9 (amended): when a summarize case does not set max_words, the limit
defaults to the constant 9999 (not an unbounded limit): score_len is 1.0 for
outputs of at most 9999 words, and the linear penalty applies beyond that. -/
theorem claim_C9 (output : String) (c : Case) (hmw : c.max_words = none) :
    ∃ m : SumMetrics, score_summarize output c = .ok m ∧
      m.words = (splitWs output.data).length ∧
      ((m.words : ℤ) ≤ 9999 → m.score_len = 1) ∧
      (9999 < (m.words : ℤ) →
        m.score_len = round3 (max 0 (1 - ((m.words : ℚ) - 9999) / 9999))) := by
  set SK : ℚ := if (c.keywords.getD []).isEmpty then (0 : ℚ)
    else (((c.keywords.getD []).countP (fun k => containsCI output k) : ℚ))
      / (((c.keywords.getD []).length : ℚ)) with hSK
  by_cases hle : (((splitWs output.data).length : ℤ)) ≤ 9999
  · refine ⟨⟨(splitWs output.data).length, round3 1, round3 SK⟩, ?_, rfl, ?_, ?_⟩
    · simp [score_summarize, hmw, hle, hSK]
    · intro _
      exact round3_one
    · intro hgt
      have : (((splitWs output.data).length : ℤ)) ≤ 9999 := hle
      simp only [SumMetrics.words] at hgt
      omega
  · refine ⟨⟨(splitWs output.data).length,
      round3 (max 0 (1 - (((splitWs output.data).length : ℚ) - 9999) / 9999)),
      round3 SK⟩, ?_, rfl, ?_, ?_⟩
    · have h9 : (9999 : ℤ) ≠ 0 := by norm_num
      simp [score_summarize, hmw, hle, hSK]
    · intro hle'
      simp only [SumMetrics.words] at hle'
      omega
    · intro _
      rfl

theorem claim_C9_witness :
    (score_summarize "a b" cNoMax).map SumMetrics.score_len = .ok 1 := by
  obtain ⟨m, hok, hw, h1, _⟩ := claim_C9 "a b" cNoMax rfl
  have hwv : m.words = 2 := by
    rw [hw]
    decide
  rw [hok]
  simp only [Except.map]
  rw [h1 (by rw [hwv]; norm_num)]

/-- Claim C9 counterexample: a summarize case without max_words scored against an
output of 19998 words yields score_len 0.0, not 1.0 — the unset limit is the
finite default 9999, not unbounded. -/
theorem claim_C9_counterexample :
    (score_summarize bigOut cNoMax).map SumMetrics.score_len = .ok 0 ∧ (0 : ℚ) ≠ 1 := by
  constructor
  · have hbig : countWordsAux false bigOut.data = 19998 := cw_repl 19998
    have hw : (splitWs bigOut.data).length = 19998 := by
      rw [splitWs_length]
      exact hbig
    have hle : ¬ (((splitWs bigOut.data).length : ℤ)) ≤ 9999 := by
      rw [hw]
      norm_num
    simp only [score_summarize, cNoMax, Option.getD, hw]
    norm_num
    simp only [Except.map]
    norm_num [round3, rhEven]
  · norm_num

/-- Claim C2, code bug at a concrete failing input: on output "[1]" json.loads
succeeds with a truthy non-dict value, so the claimed ok_json = 0.0 / score_label
= 0.0 result is never produced — (parsed or dict()).get("label") raises
AttributeError on the list. The second and third conjuncts show the behavior the
claim describes on the fallback path and on a synthetic-record path, where the
scorer does return. -/
theorem claim_C2_bug :
    score_classify "[1]" cClsEx = .error .attributeError ∧
    score_classify "I think this is Negative overall." cClsEx
      = .ok ⟨1, .pystr "Negative", 0⟩ ∧
    score_classify "Positive" cClsEx = .ok ⟨1, .pystr "Positive", 1⟩ := by
  exact ⟨rfl, rfl, rfl⟩

/-- Claim C4: when a variant declares a non-empty few-shot list, the rendered
prompt is exactly the declared-order concatenation of the formatted shot blocks
separated by blank lines, a blank line, and the final task/input block; the
right-hand side mentions only few_shots, task and input, so the template body
cannot occur in it except by coincidence of content. -/
theorem claim_C4 (v : Variant) (c : Case) (r : Rendered)
    (hshots : v.few_shots ≠ []) (h : render v c = .ok r) :
    r.prompt = String.intercalate "\n\n"
        (v.few_shots.map (fun s => "User: " ++ s.user ++ "\nAssistant: " ++ s.model))
      ++ "\n\n" ++ "User: " ++ c.task ++ "\n" ++ c.input ++ "\nAssistant:" := by
  unfold render at h
  cases hpf : pyFormat v.prompt_template c.task c.input with
  | error e =>
    rw [hpf] at h
    cases h
  | ok base =>
    rw [hpf] at h
    simp only [Except.map] at h
    cases h
    have hne : v.few_shots.isEmpty = false := by
      cases hfs : v.few_shots with
      | nil => exact absurd hfs hshots
      | cons a as => rfl
    simp only [hne, Bool.false_eq_true, if_false]
    rfl

theorem claim_C4_witness :
    (render vFS cClsEx).toOption.map Rendered.prompt
      = some "User: u1\nAssistant: m1\n\nUser: u2\nAssistant: m2\n\nUser: t\ni\nAssistant:" := by
  have hr : render vFS cClsEx = .ok ⟨fewshotPrompt vFS cClsEx, none, none⟩ := by rfl
  have happ := claim_C4 vFS cClsEx ⟨fewshotPrompt vFS cClsEx, none, none⟩
    (by simp [vFS]) hr
  rw [hr]
  simp only [Except.toOption, Option.map]
  rfl

theorem renderToks_err (task inp : String) (ts : List FTok) (nm : String)
    (hmem : FTok.fieldName nm ∈ ts) (ht : nm ≠ "task") (hi : nm ≠ "input") :
    ∃ e, renderToks task inp ts = .error e := by
  induction ts with
  | nil => cases hmem
  | cons t rest ih =>
    rcases List.mem_cons.mp hmem with heq | hmem'
    · cases heq.symm
      exact ⟨.keyError nm, by simp [renderToks, ht, hi]⟩
    · obtain ⟨e, he⟩ := ih hmem'
      cases t with
      | lit c => exact ⟨e, by simp [renderToks, he, Except.map]⟩
      | fieldName nm' =>
        by_cases h1 : nm' = "task"
        · exact ⟨e, by simp [renderToks, h1, he, Except.map]⟩
        · by_cases h2 : nm' = "input"
          · exact ⟨e, by simp [renderToks, h1, h2, he, Except.map]⟩
          · exact ⟨.keyError nm', by simp [renderToks, h1, h2]⟩

theorem renderToks_ok (task inp : String) (ts : List FTok)
    (hall : ∀ nm, FTok.fieldName nm ∈ ts → nm = "task" ∨ nm = "input") :
    ∃ out, renderToks task inp ts = .ok out := by
  induction ts with
  | nil => exact ⟨[], rfl⟩
  | cons t rest ih =>
    obtain ⟨out, ho⟩ := ih (fun nm hnm => hall nm (List.mem_cons_of_mem t hnm))
    cases t with
    | lit c => exact ⟨c :: out, by simp [renderToks, ho, Except.map]⟩
    | fieldName nm' =>
      rcases hall nm' (List.mem_cons_self _ _) with h1 | h2
      · exact ⟨task.data ++ out, by simp [renderToks, h1, ho, Except.map]⟩
      · by_cases h1 : nm' = "task"
        · exact ⟨task.data ++ out, by simp [renderToks, h1, ho, Except.map]⟩
        · exact ⟨inp.data ++ out, by simp [renderToks, h1, h2, ho, Except.map]⟩

/-- Claim C5: render fails whenever the variant's template is malformed or
references a replacement field other than the case fields task and input that
are supplied to it — in particular any placeholder absent from the case — and
succeeds (substituting the case's actual fields, never a default) when every
referenced field is task or input. -/
theorem claim_C5 (v : Variant) (c : Case) :
    (ftokensTop v.prompt_template = none → ∃ e, render v c = .error e) ∧
    (∀ ts nm, ftokensTop v.prompt_template = some ts → FTok.fieldName nm ∈ ts →
      nm ≠ "task" → nm ≠ "input" → ∃ e, render v c = .error e) ∧
    (∀ ts, ftokensTop v.prompt_template = some ts →
      (∀ nm, FTok.fieldName nm ∈ ts → nm = "task" ∨ nm = "input") →
      ∃ r, render v c = .ok r) := by
  refine ⟨?_, ?_, ?_⟩
  · intro hnone
    exact ⟨.valueError, by simp [render, pyFormat, hnone, Except.map]⟩
  · intro ts nm hts hmem ht hi
    obtain ⟨e, he⟩ := renderToks_err c.task c.input ts nm hmem ht hi
    exact ⟨e, by simp [render, pyFormat, hts, he, Except.map]⟩
  · intro ts hts hall
    obtain ⟨out, ho⟩ := renderToks_ok c.task c.input ts hall
    exact ⟨⟨if v.few_shots.isEmpty then ⟨out⟩ else fewshotPrompt v c,
      v.system, v.response_mime_type⟩, by simp [render, pyFormat, hts, ho, Except.map]⟩

theorem claim_C5_witness : (render vBad cClsEx).toOption = none := by
  obtain ⟨e, he⟩ := (claim_C5 vBad cClsEx).2.1 [FTok.fieldName "foo"] "foo"
    rfl (by simp) (by decide) (by decide)
  rw [he]
  rfl

theorem seqE_append (l₁ l₂ : List (Except PyError Record)) :
    seqE (l₁ ++ l₂) = (do
      let a ← seqE l₁
      let b ← seqE l₂
      pure (a ++ b)) := by
  induction l₁ with
  | nil =>
    cases h2 : seqE l₂ <;> simp [seqE, h2, Bind.bind, Except.bind, Pure.pure, Except.pure]
  | cons e rest ih =>
    simp only [List.cons_append, seqE, List.append_eq]
    rw [ih]
    cases e <;> cases hr : seqE rest <;> cases hl2 : seqE l₂ <;>
      simp [Bind.bind, Except.bind, Pure.pure, Except.pure, hr, hl2]

theorem runCases_filter (gen : Rendered → Option String) (v : Variant) (cs : List Case) :
    runCases gen v cs
      = seqE ((cs.filter (fun c => c.type ∈ appliesToSet v)).map (execPair gen v)) := by
  induction cs with
  | nil => rfl
  | cons c rest ih =>
    by_cases hc : c.type ∈ appliesToSet v
    · rw [runCases, if_pos hc]
      rw [List.filter_cons_of_pos (by simpa using hc), List.map_cons]
      rw [ih]
      cases he : execPair gen v c <;>
        cases hs : seqE ((rest.filter (fun c => c.type ∈ appliesToSet v)).map (execPair gen v)) <;>
        simp [seqE, he, hs, Bind.bind, Except.bind, Pure.pure, Except.pure]
    · rw [runCases, if_neg hc, List.filter_cons_of_neg (by simpa using hc)]
      exact ih

/-- Claim C8: a (variant, case) pair is executed iff the case type belongs to the
variant's applies_to set (defaulting to summarize and classify when undeclared):
the run is exactly the sequenced execution of the applicable pairs in declared
order, so skipped pairs contribute no record; in particular a variant declaring
applies_to = ["classify"] executes only the cases whose type is "classify". -/
theorem claim_C8 (gen : Rendered → Option String) (vs : List Variant) (cs : List Case) :
    runAll gen vs cs
      = seqE ((vs.map (fun v =>
          (cs.filter (fun c => c.type ∈ appliesToSet v)).map (execPair gen v))).flatten) ∧
    (∀ v, v.applies_to = some ["classify"] →
      runAll gen [v] cs
        = seqE ((cs.filter (fun c => c.type = "classify")).map (execPair gen v))) := by
  constructor
  · induction vs with
    | nil => rfl
    | cons v rest ih =>
      show (do
        let a ← runCases gen v cs
        let b ← runAll gen rest cs
        pure (a ++ b)) = _
      rw [List.map_cons, List.flatten_cons, seqE_append, runCases_filter, ih]
  · intro v hv
    have h1 : runAll gen [v] cs = seqE ((cs.filter
        (fun c => c.type ∈ appliesToSet v)).map (execPair gen v)) := by
      show (do
        let a ← runCases gen v cs
        let b ← runAll gen [] cs
        pure (a ++ b)) = _
      rw [runCases_filter]
      cases hs : seqE ((cs.filter (fun c => c.type ∈ appliesToSet v)).map (execPair gen v)) <;>
        simp [runAll, hs, Bind.bind, Except.bind, Pure.pure, Except.pure]
    rw [h1]
    have hfilter : cs.filter (fun c => c.type ∈ appliesToSet v)
        = cs.filter (fun c => c.type = "classify") := by
      apply List.filter_congr
      intro c _
      simp [appliesToSet, hv]
    rw [hfilter]

theorem claim_C8_witness :
    runAll genEx [vClsOnly] [cSumEx, cClsEx] = seqE [execPair genEx vClsOnly cClsEx] := by
  have h := (claim_C8 genEx [vClsOnly] [cSumEx, cClsEx]).2 vClsOnly rfl
  rw [h]
  rfl

/-- Claim C10 (amended): for an executed pair whose model response is a string,
the record's output field is the response stripped of surrounding whitespace
while the scorers are applied to the raw unstripped response; a None response is
recorded (as empty output) only for case types without a scorer — for summarize
and classify cases scoring the None response raises instead, producing no record. -/
theorem claim_C10 (gen : Rendered → Option String) (v : Variant) (c : Case)
    (rp : Rendered) (hr : render v c = .ok rp) :
    (∀ t m, gen rp = some t → c.type = "summarize" → score_summarize t c = .ok m →
       execPair gen v c = .ok (baseRow v c (some t) ++ summarizeRow m)) ∧
    (∀ t m, gen rp = some t → c.type = "classify" → score_classify t c = .ok m →
       execPair gen v c = .ok (baseRow v c (some t) ++ classifyRow m)) ∧
    (c.type ≠ "summarize" → c.type ≠ "classify" →
       execPair gen v c = .ok (baseRow v c (gen rp))) ∧
    (gen rp = none → c.type = "summarize" → execPair gen v c = .error .attributeError) ∧
    (gen rp = none → c.type = "classify" → execPair gen v c = .error .typeError) ∧
    (∀ t, List.lookup "output" (baseRow v c (some t)) = some (.pystr (pyStrip t))) := by
  refine ⟨?_, ?_, ?_, ?_, ?_, ?_⟩
  · intro t m hg htype hs
    simp [execPair, hr, Bind.bind, Except.bind, hg, htype, hs, Pure.pure, Except.pure]
  · intro t m hg htype hs
    simp [execPair, hr, Bind.bind, Except.bind, hg, htype, hs, Pure.pure, Except.pure]
  · intro h1 h2
    simp [execPair, hr, Bind.bind, Except.bind, h1, h2, Pure.pure, Except.pure]
  · intro hg htype
    simp [execPair, hr, Bind.bind, Except.bind, hg, htype]
  · intro hg htype
    simp [execPair, hr, Bind.bind, Except.bind, hg, htype]
  · intro t
    rfl

theorem claim_C10_witness :
    execPair genPad vEx cSumEx
      = .ok (baseRow vEx cSumEx (some "  hi  ") ++ summarizeRow ⟨1, 1, 0⟩) ∧
    List.lookup "output" (baseRow vEx cSumEx (some "  hi  ")) = some (.pystr "hi") ∧
    execPair genPad vEx cOther = .ok (baseRow vEx cOther (some "  hi  ")) := by
  have h := claim_C10 genPad vEx cSumEx ⟨"do", none, none⟩ rfl
  have hscore : score_summarize "  hi  " cSumEx = .ok ⟨1, 1, 0⟩ := by
    have hw : (splitWs ("  hi  ").data).length = 1 := by decide
    have hk : (["x"].countP (fun k => containsCI "  hi  " k)) = 0 := by decide
    simp only [score_summarize, cSumEx, hw, hk, Option.getD]
    norm_num [round3, rhEven]
  refine ⟨h.1 "  hi  " ⟨1, 1, 0⟩ rfl rfl hscore, ?_, ?_⟩
  · have hout := h.2.2.2.2.2 "  hi  "
    rw [hout]
    rfl
  · have h2 := claim_C10 genPad vEx cOther ⟨"do", none, none⟩ rfl
    exact h2.2.2.1 (by decide) (by decide)

/-- Claim C10 counterexample: with a None model response, neither scored case
type records an empty-output result — the pair raises during scoring instead. -/
theorem claim_C10_counterexample :
    execPair genNone vEx cSumEx = .error .attributeError ∧
    execPair genNone vEx cClsEx = .error .typeError := by
  exact ⟨rfl, rfl⟩

theorem lookup_append_rec (k : String) (l₁ l₂ : Record) :
    List.lookup k (l₁ ++ l₂) = (List.lookup k l₁).or (List.lookup k l₂) := by
  induction l₁ with
  | nil => simp [List.lookup]
  | cons p rest ih => by_cases h : k == p.1 <;> simp [List.lookup, h, ih]

theorem lookup_pad_aux (r : Record) (k : String) (fns : List String)
    (hk : k ∈ fns) (hnone : List.lookup k r = none) :
    List.lookup k ((fns.filter (fun x => (List.lookup x r).isNone)).map
      (fun x => (x, PyVal.pystr ""))) = some (.pystr "") := by
  induction fns with
  | nil => cases hk
  | cons f rest ih =>
    by_cases hkf : k = f
    · subst hkf
      rw [List.filter_cons_of_pos (by simp [hnone])]
      simp [List.lookup]
    · have hmem : k ∈ rest := by
        rcases List.mem_cons.mp hk with h | h
        · exact absurd h hkf
        · exact h
      by_cases hpf : (List.lookup f r).isNone
      · rw [List.filter_cons_of_pos (by simpa using hpf)]
        have hne : (k == f) = false := by
          simp [hkf]
        simp [List.lookup, hne, ih hmem]
      · rw [List.filter_cons_of_neg (by simpa using hpf)]
        exact ih hmem

theorem lookup_padRow (fns : List String) (r : Record) (k : String) (hk : k ∈ fns) :
    List.lookup k (padRow fns r) = some ((List.lookup k r).getD (.pystr "")) := by
  rw [padRow, lookup_append_rec]
  cases h : List.lookup k r with
  | some v => simp [h]
  | none => simp [h, lookup_pad_aux r k fns hk h]

theorem charLL_total (a b : List Char) : charLL a b = true ∨ charLL b a = true := by
  induction a generalizing b with
  | nil => left; rfl
  | cons x xs ih =>
    cases b with
    | nil => right; rfl
    | cons y ys =>
      by_cases h1 : x.toNat < y.toNat
      · left
        simp [charLL, h1]
      · by_cases h2 : y.toNat < x.toNat
        · right
          simp [charLL, h2]
        · rcases ih ys with h | h
          · left
            simp [charLL, h1, h2, h]
          · right
            simp [charLL, h1, h2, h]

theorem charLL_trans (a b c : List Char) (hab : charLL a b = true)
    (hbc : charLL b c = true) : charLL a c = true := by
  induction a generalizing b c with
  | nil => rfl
  | cons x xs ih =>
    cases b with
    | nil => simp [charLL] at hab
    | cons y ys =>
      cases c with
      | nil => simp [charLL] at hbc
      | cons z zs =>
        simp only [charLL] at hab hbc ⊢
        by_cases h1 : x.toNat < y.toNat
        · by_cases h2 : y.toNat < z.toNat
          · have hxz : x.toNat < z.toNat := Nat.lt_trans h1 h2
            simp [hxz]
          · by_cases h3 : z.toNat < y.toNat
            · rw [if_neg h2, if_pos h3] at hbc
              exact absurd hbc (by simp)
            · have hxz : x.toNat < z.toNat := by omega
              simp [hxz]
        · by_cases h4 : y.toNat < x.toNat
          · rw [if_neg h1, if_pos h4] at hab
            exact absurd hab (by simp)
          · rw [if_neg h1, if_neg h4] at hab
            by_cases h2 : y.toNat < z.toNat
            · have hxz : x.toNat < z.toNat := by omega
              simp [hxz]
            · by_cases h3 : z.toNat < y.toNat
              · rw [if_neg h2, if_pos h3] at hbc
                exact absurd hbc (by simp)
              · rw [if_neg h2, if_neg h3] at hbc
                have hxz : ¬ x.toNat < z.toNat := by omega
                have hzx : ¬ z.toNat < x.toNat := by omega
                rw [if_neg hxz, if_neg hzx]
                exact ih ys zs hab hbc

theorem mem_insSorted (x k : String) (l : List String) :
    k ∈ insSorted x l ↔ k = x ∨ k ∈ l := by
  induction l with
  | nil => simp [insSorted]
  | cons y ys ih =>
    by_cases h : strLe x y
    · simp [insSorted, h]
    · simp [insSorted, h, ih]
      tauto

theorem pairwise_insSorted (x : String) (l : List String)
    (hl : l.Pairwise (fun a b => strLe a b = true)) :
    (insSorted x l).Pairwise (fun a b => strLe a b = true) := by
  induction l with
  | nil => simp [insSorted]
  | cons y ys ih =>
    rcases List.pairwise_cons.mp hl with ⟨hy, hys⟩
    by_cases h : strLe x y
    · rw [insSorted, if_pos h]
      refine List.Pairwise.cons ?_ hl
      intro z hz
      rcases List.mem_cons.mp hz with rfl | hz'
      · exact h
      · exact charLL_trans x.data y.data z.data h (hy z hz')
    · rw [insSorted, if_neg h]
      refine List.Pairwise.cons ?_ (ih hys)
      intro z hz
      rcases (mem_insSorted x z ys).mp hz with rfl | hz'
      · rcases charLL_total z.data y.data with ht | ht
        · exact absurd ht h
        · exact ht
      · exact hy z hz'

theorem pairwise_sortStrs (l : List String) :
    (sortStrs l).Pairwise (fun a b => strLe a b = true) := by
  induction l with
  | nil => simp [sortStrs]
  | cons x xs ih => exact pairwise_insSorted x (sortStrs xs) ih

theorem mem_sortStrs (k : String) (l : List String) : k ∈ sortStrs l ↔ k ∈ l := by
  induction l with
  | nil => simp [sortStrs]
  | cons x xs ih =>
    simp [sortStrs, mem_insSorted, ih]

/-- Claim C7: the tabular schema is the five fixed leading columns followed by the
code-point-sorted union of all other keys observed across the run's records, and
every emitted row has one cell per column in schema order, a record's own value
where the key is present and the empty string where it is absent — never dropped
or misaligned. -/
theorem claim_C7 (rows : List Record) :
    fieldCols rows = coreCols ++ metricsCols rows ∧
    (metricsCols rows).Pairwise (fun a b => strLe a b = true) ∧
    (∀ k, k ∈ metricsCols rows ↔ ((∃ r ∈ rows, k ∈ rowKeys r) ∧ k ∉ coreCols)) ∧
    (∀ r, csvCells (fieldCols rows) r
      = (fieldCols rows).map (fun k => (List.lookup k r).getD (.pystr ""))) ∧
    (∀ r, (csvCells (fieldCols rows) r).length = (fieldCols rows).length) := by
  refine ⟨rfl, pairwise_sortStrs _, ?_, ?_, ?_⟩
  · intro k
    simp only [metricsCols, mem_sortStrs, List.mem_filter, unionKeys, List.mem_dedup,
      List.mem_flatten, List.mem_map, Bool.not_eq_eq_eq_not, Bool.not_true,
      decide_eq_false_iff_not]
    constructor
    · rintro ⟨⟨l, ⟨r, hr, rfl⟩, hkl⟩, hnc⟩
      exact ⟨⟨r, hr, hkl⟩, hnc⟩
    · rintro ⟨⟨r, hr, hkl⟩, hnc⟩
      exact ⟨⟨rowKeys r, ⟨r, hr, rfl⟩, hkl⟩, hnc⟩
  · intro r
    apply List.map_congr_left
    intro k hk
    rw [lookup_padRow _ _ _ hk]
    simp
  · intro r
    simp [csvCells]

theorem claim_C7_witness :
    fieldCols rowsW = coreCols ++ ["b", "words"] ∧
    ("words" ∈ metricsCols rowsW) ∧
    csvCells (fieldCols rowsW) (rowsW.getD 1 [])
      = (fieldCols rowsW).map (fun k => (List.lookup k (rowsW.getD 1 [])).getD (.pystr "")) := by
  have h := claim_C7 rowsW
  refine ⟨?_, ?_, h.2.2.2.1 (rowsW.getD 1 [])⟩
  · rw [h.1]
    rfl
  · exact (h.2.2.1 "words").mpr
      ⟨⟨rowsW.getD 0 [], by simp [rowsW], by simp [rowsW, rowKeys]⟩, by decide⟩

/-- Claim C6, code bug at a concrete failing input: in a run producing one
summarize record and one classify record, the structured (JSON) export's first
record contains the key "ok_json" with value "" even though that record never
had the key — the CSV padding loop mutates the shared row dicts before
json.dumps runs — while the record reconstructed from the tabular export
(treating "" as absent) does not contain the key. So the structured export is
padded, and the round-trip comparison fails at that key. -/
theorem claim_C6_bug :
    rowsRun.length = 2 ∧
    List.lookup "ok_json" (rowsRun.getD 0 []) = none ∧
    List.lookup "ok_json" ((structuredRows rowsRun).getD 0 []) = some (.pystr "") ∧
    List.lookup "ok_json" ((reconRows rowsRun).getD 0 []) = none := by
  exact ⟨rfl, rfl, rfl, rfl⟩

end PromptLab
